import Mathlib

/-!
Verification of the Consonant reservation-ledger core.

The development shallowly embeds the three atomic hot-store scripts of the
ledger (check_and_reserve, deduct_grains, finalize_request, as loaded in
internal/ledger/ledger.go and scripts/lua/) together with the bootstrap
routine of the reconciliation syncer (Syncer.InitializeRedis).

Modelling conventions:
- A customer's hot-store cells are `balance` and `reserved` integers; a
  missing key is read as 0 by the scripts (GET ... or 0, and INCRBY on a
  missing key starts from 0), so total `Int` cells are a faithful model.
- The request tracking hash `request:{id}` is a record; hash fields that
  the reserve script never writes are `Option` fields starting at `none`.
  The finalize script reads the numeric fields with a default of 0 when
  absent; records produced by the scripts always carry them, and an
  absent field is identified with the value 0.
- Key TTLs (EXPIRE 3600 / 86400) are recorded in a `ttl` field; expiry
  itself is a background event of the store, not part of any script.
-/

/-- Statuses that appear as string constants in the scripts. -/
def preflight_approved : String := "preflight_approved"

def streaming : String := "streaming"

def completed : String := "completed"

def killed : String := "killed"

def failed : String := "failed"

def timeout_status : String := "timeout"

/-- Rejection and error codes returned by the scripts. -/
def REQUEST_EXISTS : String := "REQUEST_EXISTS"

def INSUFFICIENT_BALANCE : String := "INSUFFICIENT_BALANCE"

def REQUEST_NOT_FOUND : String := "REQUEST_NOT_FOUND"

def BALANCE_NEGATIVE : String := "BALANCE_NEGATIVE"

/-- Integrity flags written by the finalize script. -/
def undercharge_shortfall : String := "undercharge_shortfall"

def reservation_underflow : String := "reservation_underflow"

/-- The hash stored at `request:{request_id}`.

Fields mirror the hash fields written by the three Lua scripts:
check_and_reserve writes customer_id, reserved_grains, estimated_grains,
consumed_grains, status, created_at, metadata; deduct_grains updates
consumed_grains, status, last_deduction_at; finalize_request updates
status, actual_cost_grains, refunded_grains, finalized_at and possibly
integrity_issue. -/
structure ReqRecord where
  customer_id : String
  reserved_grains : Int
  estimated_grains : Int
  consumed_grains : Int
  status : String
  created_at : Int
  metadata : String
  last_deduction_at : Option Int := none
  finalized_at : Option Int := none
  actual_cost_grains : Option Int := none
  refunded_grains : Option Int := none
  integrity_issue : Option String := none
  ttl : Int := 3600
deriving Repr, DecidableEq

/-- The request-id keyed portion of the hot store (`request:{id}` keys). -/
abbrev ReqMap := String → Option ReqRecord

/-- Point update of the request map, as performed by HSET on a request key. -/
def ReqMap.set (m : ReqMap) (k : String) (r : ReqRecord) : ReqMap :=
  fun k2 => if k2 = k then some r else m k2

/-- The hot-store cells touched by one script invocation for one customer:
`customer:balance:{c}`, `customer:reserved:{c}` and the request keyspace. -/
structure HotState where
  balance : Int
  reserved : Int
  requests : ReqMap

/-- Result triple of check_and_reserve and deduct_grains:
`ok v` models the Lua return 1, v, empty string and `err b code` models
the return 0, b, code. -/
inductive ScriptOutcome where
  | ok : Int → ScriptOutcome
  | err : Int → String → ScriptOutcome
deriving Repr, DecidableEq

/-- Result triple of finalize_request: `notFound` models 0, 0,
REQUEST_NOT_FOUND and `success refund balance` models 1, refund, balance. -/
inductive FinalizeOutcome where
  | notFound : FinalizeOutcome
  | success : Int → Int → FinalizeOutcome
deriving Repr, DecidableEq

/-- Embedding of check_and_reserve.lua (also inlined as
checkAndReserveScript in ledger.go loadLuaScripts). -/
def checkAndReserve (s : HotState) (requestId : String)
    (reservedArg estimatedArg nowArg : Int)
    (metadataArg customerIdArg : String) : HotState × ScriptOutcome :=
  let balance := s.balance
  let reserved := s.reserved
  let needed := reservedArg
  let available := balance - reserved
  match s.requests requestId with
  | some _ => (s, ScriptOutcome.err balance REQUEST_EXISTS)
  | none =>
    if available < needed then
      (s, ScriptOutcome.err balance INSUFFICIENT_BALANCE)
    else
      let record : ReqRecord :=
        { customer_id := customerIdArg
          reserved_grains := reservedArg
          estimated_grains := estimatedArg
          consumed_grains := 0
          status := preflight_approved
          created_at := nowArg
          metadata := metadataArg
          ttl := 3600 }
      ({ s with reserved := reserved + needed
                requests := s.requests.set requestId record },
       ScriptOutcome.ok (available - needed))

/-- Embedding of deduct_grains.lua (also inlined as deductGrainsScript in
ledger.go loadLuaScripts). -/
def deductGrains (s : HotState) (requestId : String)
    (amount nowArg : Int) : HotState × ScriptOutcome :=
  let balance := s.balance
  match s.requests requestId with
  | none => (s, ScriptOutcome.err balance REQUEST_NOT_FOUND)
  | some r =>
    if balance < amount then
      (s, ScriptOutcome.err balance INSUFFICIENT_BALANCE)
    else if balance - amount < 0 then
      (s, ScriptOutcome.err balance BALANCE_NEGATIVE)
    else
      let r2 : ReqRecord :=
        { r with consumed_grains := r.consumed_grains + amount
                 status := streaming
                 last_deduction_at := some nowArg }
      ({ s with balance := balance - amount
                requests := s.requests.set requestId r2 },
       ScriptOutcome.ok (balance - amount))

/-- The terminal-status guard of finalizeRequestScript in ledger.go: the
script checks exactly these three statuses before its idempotent
early return. -/
def isTerminalChecked (st : String) : Bool :=
  st == completed || st == killed || st == failed

/-- Balance after the reconciliation branch of finalizeRequestScript:
INCRBY by the over-estimate refund, DECRBY by the affordable extra
charge, or SET to 0 on an unaffordable extra charge. -/
def finalizeNewBalance (balance consumed actualCost : Int) : Int :=
  if consumed > actualCost then balance + (consumed - actualCost)
  else if actualCost > consumed then
    if balance ≥ actualCost - consumed then balance - (actualCost - consumed)
    else 0
  else balance

/-- The refund value computed by the same branch: in the shortfall case
the script sets refund to the negated pre-clamp balance. -/
def finalizeRefund (balance consumed actualCost : Int) : Int :=
  if consumed > actualCost then consumed - actualCost
  else if actualCost > consumed then
    if balance ≥ actualCost - consumed then -(actualCost - consumed)
    else -balance
  else 0

/-- The integrity_issue field after the reconciliation branch (the script
writes it only in the shortfall case, otherwise the prior value stays). -/
def finalizeIssue1 (balance consumed actualCost : Int)
    (prev : Option String) : Option String :=
  if consumed > actualCost then prev
  else if actualCost > consumed then
    if balance ≥ actualCost - consumed then prev
    else some undercharge_shortfall
  else prev

/-- The reserved counter after the release branch of the script. -/
def finalizeNewReserved (currentReserved reserved : Int) : Int :=
  if currentReserved ≥ reserved then currentReserved - reserved else 0

/-- The integrity_issue field after the release branch: a
reservation_underflow write overwrites whatever the reconciliation
branch left there. -/
def finalizeIssueFinal (currentReserved reserved : Int)
    (issue1 : Option String) : Option String :=
  if currentReserved ≥ reserved then issue1 else some reservation_underflow

/-- Embedding of finalizeRequestScript (inline Lua in ledger.go
loadLuaScripts, lines 310-362). The helper functions above follow its
two write phases branch for branch. -/
def finalizeRequest (s : HotState) (requestId : String) (actualCost : Int)
    (statusArg : String) (nowArg : Int) : HotState × FinalizeOutcome :=
  match s.requests requestId with
  | none => (s, FinalizeOutcome.notFound)
  | some r =>
    if isTerminalChecked r.status then
      (s, FinalizeOutcome.success 0 s.balance)
    else
      let reserved := r.reserved_grains
      let consumed := r.consumed_grains
      let balance := s.balance
      let newBalance := finalizeNewBalance balance consumed actualCost
      let refund := finalizeRefund balance consumed actualCost
      let issue1 := finalizeIssue1 balance consumed actualCost r.integrity_issue
      let newReserved := finalizeNewReserved s.reserved reserved
      let issueFinal := finalizeIssueFinal s.reserved reserved issue1
      let r2 : ReqRecord :=
        { r with status := statusArg
                 actual_cost_grains := some actualCost
                 refunded_grains := some refund
                 finalized_at := some nowArg
                 integrity_issue := issueFinal
                 ttl := 86400 }
      ({ s with balance := newBalance
                reserved := newReserved
                requests := s.requests.set requestId r2 },
       FinalizeOutcome.success refund newBalance)

/-- Claim C9: in the deduct script the BALANCE_NEGATIVE branch is
unreachable: whenever the preceding check balance ≥ amount succeeds,
balance − amount < 0 is false in exact integer arithmetic, so
deduct_grains never returns the BALANCE_NEGATIVE error code. -/
theorem deduct_balance_negative_unreachable (s : HotState)
    (requestId : String) (amount nowArg b : Int) :
    (deductGrains s requestId amount nowArg).2 ≠
      ScriptOutcome.err b BALANCE_NEGATIVE := by
  unfold deductGrains
  cases h : s.requests requestId with
  | none =>
    simp [REQUEST_NOT_FOUND, BALANCE_NEGATIVE]
  | some r =>
    by_cases h1 : s.balance < amount
    · simp [h1, INSUFFICIENT_BALANCE, BALANCE_NEGATIVE]
    · have h2 : ¬ (s.balance - amount < 0) := by omega
      simp [h1, h2]

/-! ## Multi-customer store and operation sequences

The Go ledger derives the keys for one script invocation from a single
customer id (ledger.go CheckAndReserveBalance, DeductGrains,
FinalizeRequest), so a script run acts on that customer's balance and
reserved cells and on the shared request keyspace. -/

/-- The whole hot store: per-customer balance and reserved cells (missing
keys read as 0) and the request keyspace. -/
structure Store where
  balance : String → Int
  reserved : String → Int
  requests : ReqMap

/-- The cells a script invocation for customer `c` sees. -/
def Store.view (st : Store) (c : String) : HotState :=
  ⟨st.balance c, st.reserved c, st.requests⟩

/-- Writing a script invocation's result back for customer `c`. -/
def Store.put (st : Store) (c : String) (h : HotState) : Store :=
  { balance := fun c2 => if c2 = c then h.balance else st.balance c2
    reserved := fun c2 => if c2 = c then h.reserved else st.reserved c2
    requests := h.requests }

/-- One atomic execution of a ledger script, as dispatched by the Go
methods: reserve passes the customer id both for the keys and as ARGV[5]. -/
inductive GOp where
  | reserve (customerId requestId : String)
      (reservedArg estimatedArg nowArg : Int) (metadataArg : String)
  | deduct (customerId requestId : String) (amount nowArg : Int)
  | finalize (customerId requestId : String) (actualCost : Int)
      (statusArg : String) (nowArg : Int)

/-- State effect of one script execution (the returned triple is dropped). -/
def GOp.apply (st : Store) : GOp → Store
  | GOp.reserve c rid a e t m =>
      st.put c (checkAndReserve (st.view c) rid a e t m c).1
  | GOp.deduct c rid a t =>
      st.put c (deductGrains (st.view c) rid a t).1
  | GOp.finalize c rid a stat t =>
      st.put c (finalizeRequest (st.view c) rid a stat t).1

/-- State after a finite sequence of script executions. -/
def runOps (st : Store) (ops : List GOp) : Store :=
  ops.foldl GOp.apply st

/-- Grain-amount argument of the execution is positive. -/
def GOp.positiveAmounts : GOp → Prop
  | GOp.reserve _ _ a _ _ _ => 0 < a
  | GOp.deduct _ _ a _ => 0 < a
  | GOp.finalize _ _ a _ _ => 0 < a

/-- The C1 invariant: every customer's balance and reserved are ≥ 0. -/
def StoreInv (st : Store) : Prop :=
  ∀ c, 0 ≤ st.balance c ∧ 0 ≤ st.reserved c

lemma checkAndReserve_nonneg (s : HotState) (requestId : String)
    (a e t : Int) (m c : String) (hb : 0 ≤ s.balance) (hr : 0 ≤ s.reserved)
    (ha : 0 ≤ a) :
    0 ≤ (checkAndReserve s requestId a e t m c).1.balance ∧
      0 ≤ (checkAndReserve s requestId a e t m c).1.reserved := by
  unfold checkAndReserve
  cases s.requests requestId with
  | some r => exact ⟨hb, hr⟩
  | none =>
    by_cases h1 : s.balance - s.reserved < a
    · simp only [h1, if_true]
      exact ⟨hb, hr⟩
    · simp only [h1, if_false]
      exact ⟨hb, by omega⟩

lemma deductGrains_nonneg (s : HotState) (requestId : String) (a t : Int)
    (hb : 0 ≤ s.balance) (hr : 0 ≤ s.reserved) :
    0 ≤ (deductGrains s requestId a t).1.balance ∧
      0 ≤ (deductGrains s requestId a t).1.reserved := by
  unfold deductGrains
  cases s.requests requestId with
  | none => exact ⟨hb, hr⟩
  | some r =>
    by_cases h1 : s.balance < a
    · simp only [h1, if_true]
      exact ⟨hb, hr⟩
    · by_cases h2 : s.balance - a < 0
      · simp only [h1, h2, if_true, if_false]
        exact ⟨hb, hr⟩
      · simp only [h1, h2, if_false]
        exact ⟨by omega, hr⟩

lemma finalizeRequest_nonneg (s : HotState) (requestId : String) (a : Int)
    (stat : String) (t : Int) (hb : 0 ≤ s.balance) (hr : 0 ≤ s.reserved) :
    0 ≤ (finalizeRequest s requestId a stat t).1.balance ∧
      0 ≤ (finalizeRequest s requestId a stat t).1.reserved := by
  unfold finalizeRequest
  cases s.requests requestId with
  | none => exact ⟨hb, hr⟩
  | some r =>
    by_cases ht : isTerminalChecked r.status
    · simp only [ht, if_true]
      exact ⟨hb, hr⟩
    · simp only [ht, if_false]
      constructor
      · show 0 ≤ finalizeNewBalance s.balance r.consumed_grains a
        unfold finalizeNewBalance
        split_ifs <;> omega
      · show 0 ≤ finalizeNewReserved s.reserved r.reserved_grains
        unfold finalizeNewReserved
        split_ifs <;> omega

lemma gop_apply_nonneg (st : Store) (op : GOp) (h : StoreInv st)
    (hp : op.positiveAmounts) : StoreInv (op.apply st) := by
  cases op with
  | reserve c rid a e t m =>
    intro c2
    have hv := checkAndReserve_nonneg (st.view c) rid a e t m c
      (h c).1 (h c).2 (le_of_lt hp)
    by_cases hc : c2 = c
    · simpa [GOp.apply, Store.put, hc] using hv
    · simpa [GOp.apply, Store.put, hc] using h c2
  | deduct c rid a t =>
    intro c2
    have hv := deductGrains_nonneg (st.view c) rid a t (h c).1 (h c).2
    by_cases hc : c2 = c
    · simpa [GOp.apply, Store.put, hc] using hv
    · simpa [GOp.apply, Store.put, hc] using h c2
  | finalize c rid a stat t =>
    intro c2
    have hv := finalizeRequest_nonneg (st.view c) rid a stat t (h c).1 (h c).2
    by_cases hc : c2 = c
    · simpa [GOp.apply, Store.put, hc] using hv
    · simpa [GOp.apply, Store.put, hc] using h c2

lemma runOps_nonneg (st : Store) (ops : List GOp) (h : StoreInv st)
    (hp : ∀ op ∈ ops, GOp.positiveAmounts op) :
    StoreInv (runOps st ops) := by
  induction ops generalizing st with
  | nil => exact h
  | cons op rest ih =>
    exact ih (op.apply st)
      (gop_apply_nonneg st op h (hp op (List.mem_cons_self op rest)))
      (fun o ho => hp o (List.mem_cons_of_mem op ho))

/-- Claim C1: starting from any state in which every customer's balance
and reserved are ≥ 0, any finite sequence of reserve, deduct and finalize
script executions with positive grain amounts keeps every customer's
balance and reserved ≥ 0 at every intermediate point (every prefix of the
sequence), so no execution ever makes a balance negative. -/
theorem ledger_scripts_preserve_nonneg (st : Store) (ops : List GOp)
    (n : ℕ) (hinv : StoreInv st)
    (hpos : ∀ op ∈ ops, GOp.positiveAmounts op) :
    StoreInv (runOps st (ops.take n)) :=
  runOps_nonneg st (ops.take n) hinv
    (fun o ho => hpos o (List.take_subset n ops ho))

/-- Concrete names used by the witness and counterexample states. -/
def custC1 : String := "c1"

def reqR1 : String := "r1"

def reqR2 : String := "r2"

def metaM : String := "m"

def w1store : Store := ⟨fun _ => 0, fun _ => 0, fun _ => none⟩

def w1ops : List GOp := [GOp.reserve custC1 reqR1 5 5 1 metaM]

theorem ledger_scripts_preserve_nonneg_witness :
    StoreInv (runOps w1store (w1ops.take 1)) :=
  ledger_scripts_preserve_nonneg w1store w1ops 1
    (fun _ => ⟨le_refl 0, le_refl 0⟩)
    (by
      intro o ho
      simp only [w1ops, List.mem_singleton] at ho
      subst ho
      exact (by norm_num : (0 : Int) < 5))

/-! ## Branch equations for the three scripts -/

lemma checkAndReserve_of_some (s : HotState) (requestId : String)
    (a e t : Int) (m c : String) (r : ReqRecord)
    (h : s.requests requestId = some r) :
    checkAndReserve s requestId a e t m c =
      (s, ScriptOutcome.err s.balance REQUEST_EXISTS) := by
  unfold checkAndReserve
  rw [h]

lemma checkAndReserve_of_insufficient (s : HotState) (requestId : String)
    (a e t : Int) (m c : String) (h : s.requests requestId = none)
    (h2 : s.balance - s.reserved < a) :
    checkAndReserve s requestId a e t m c =
      (s, ScriptOutcome.err s.balance INSUFFICIENT_BALANCE) := by
  unfold checkAndReserve
  rw [h]
  simp only [if_pos h2]

lemma checkAndReserve_of_approved (s : HotState) (requestId : String)
    (a e t : Int) (m c : String) (h : s.requests requestId = none)
    (h2 : ¬ s.balance - s.reserved < a) :
    checkAndReserve s requestId a e t m c =
      ({ s with reserved := s.reserved + a
                requests := s.requests.set requestId
                  { customer_id := c
                    reserved_grains := a
                    estimated_grains := e
                    consumed_grains := 0
                    status := preflight_approved
                    created_at := t
                    metadata := m
                    ttl := 3600 } },
       ScriptOutcome.ok (s.balance - s.reserved - a)) := by
  unfold checkAndReserve
  rw [h]
  simp only [if_neg h2]

lemma deductGrains_of_none (s : HotState) (requestId : String)
    (a t : Int) (h : s.requests requestId = none) :
    deductGrains s requestId a t =
      (s, ScriptOutcome.err s.balance REQUEST_NOT_FOUND) := by
  unfold deductGrains
  rw [h]

lemma deductGrains_of_insufficient (s : HotState) (requestId : String)
    (a t : Int) (r : ReqRecord) (h : s.requests requestId = some r)
    (h2 : s.balance < a) :
    deductGrains s requestId a t =
      (s, ScriptOutcome.err s.balance INSUFFICIENT_BALANCE) := by
  unfold deductGrains
  rw [h]
  simp only [if_pos h2]

lemma deductGrains_of_ok (s : HotState) (requestId : String)
    (a t : Int) (r : ReqRecord) (h : s.requests requestId = some r)
    (h2 : ¬ s.balance < a) :
    deductGrains s requestId a t =
      ({ s with balance := s.balance - a
                requests := s.requests.set requestId
                  { r with consumed_grains := r.consumed_grains + a
                           status := streaming
                           last_deduction_at := some t } },
       ScriptOutcome.ok (s.balance - a)) := by
  unfold deductGrains
  rw [h]
  have h3 : ¬ s.balance - a < 0 := by omega
  simp only [if_neg h2, if_neg h3]

lemma finalizeRequest_of_none (s : HotState) (requestId : String)
    (a : Int) (stat : String) (t : Int)
    (h : s.requests requestId = none) :
    finalizeRequest s requestId a stat t = (s, FinalizeOutcome.notFound) := by
  unfold finalizeRequest
  rw [h]

lemma finalizeRequest_of_terminal (s : HotState) (requestId : String)
    (a : Int) (stat : String) (t : Int) (r : ReqRecord)
    (h : s.requests requestId = some r)
    (ht : isTerminalChecked r.status = true) :
    finalizeRequest s requestId a stat t =
      (s, FinalizeOutcome.success 0 s.balance) := by
  unfold finalizeRequest
  rw [h]
  simp only [ht, if_true]

lemma finalizeRequest_of_active (s : HotState) (requestId : String)
    (a : Int) (stat : String) (t : Int) (r : ReqRecord)
    (h : s.requests requestId = some r)
    (ht : isTerminalChecked r.status = false) :
    finalizeRequest s requestId a stat t =
      ({ s with
           balance := finalizeNewBalance s.balance r.consumed_grains a
           reserved := finalizeNewReserved s.reserved r.reserved_grains
           requests := s.requests.set requestId
             { r with
                 status := stat
                 actual_cost_grains := some a
                 refunded_grains :=
                   some (finalizeRefund s.balance r.consumed_grains a)
                 finalized_at := some t
                 integrity_issue :=
                   finalizeIssueFinal s.reserved r.reserved_grains
                     (finalizeIssue1 s.balance r.consumed_grains a
                       r.integrity_issue)
                 ttl := 86400 } },
       FinalizeOutcome.success (finalizeRefund s.balance r.consumed_grains a)
         (finalizeNewBalance s.balance r.consumed_grains a)) := by
  unfold finalizeRequest
  rw [h]
  simp only [ht, if_false, Bool.false_eq_true]

/-- Claim C4: the reserve script rejects an existing request id with
REQUEST_EXISTS regardless of balance; otherwise rejects with
INSUFFICIENT_BALANCE when balance − reserved < reserved_amount; otherwise
approves: reserved is incremented by the amount, balance is unchanged, a
request record is created with consumed_grains 0 and status
preflight_approved, and the returned available is
balance − reserved − amount. -/
theorem checkAndReserve_spec (s : HotState) (requestId : String)
    (a e t : Int) (m c : String) :
    (∀ r, s.requests requestId = some r →
        checkAndReserve s requestId a e t m c =
          (s, ScriptOutcome.err s.balance REQUEST_EXISTS)) ∧
    (s.requests requestId = none → s.balance - s.reserved < a →
        checkAndReserve s requestId a e t m c =
          (s, ScriptOutcome.err s.balance INSUFFICIENT_BALANCE)) ∧
    (s.requests requestId = none → a ≤ s.balance - s.reserved →
        (checkAndReserve s requestId a e t m c).1.balance = s.balance ∧
        (checkAndReserve s requestId a e t m c).1.reserved =
          s.reserved + a ∧
        (checkAndReserve s requestId a e t m c).1.requests requestId =
          some { customer_id := c
                 reserved_grains := a
                 estimated_grains := e
                 consumed_grains := 0
                 status := preflight_approved
                 created_at := t
                 metadata := m
                 ttl := 3600 } ∧
        (checkAndReserve s requestId a e t m c).2 =
          ScriptOutcome.ok (s.balance - s.reserved - a)) := by
  refine ⟨?_, ?_, ?_⟩
  · intro r h
    exact checkAndReserve_of_some s requestId a e t m c r h
  · intro h h2
    exact checkAndReserve_of_insufficient s requestId a e t m c h h2
  · intro h h2
    have h3 : ¬ s.balance - s.reserved < a := by omega
    rw [checkAndReserve_of_approved s requestId a e t m c h h3]
    refine ⟨rfl, rfl, ?_, rfl⟩
    simp [ReqMap.set]

def w4s : HotState := ⟨100, 10, fun _ => none⟩

theorem checkAndReserve_spec_witness :
    (checkAndReserve w4s reqR1 30 20 1 metaM custC1).1.balance =
      w4s.balance ∧
    (checkAndReserve w4s reqR1 30 20 1 metaM custC1).1.reserved =
      w4s.reserved + 30 ∧
    (checkAndReserve w4s reqR1 30 20 1 metaM custC1).1.requests reqR1 =
      some { customer_id := custC1
             reserved_grains := 30
             estimated_grains := 20
             consumed_grains := 0
             status := preflight_approved
             created_at := 1
             metadata := metaM
             ttl := 3600 } ∧
    (checkAndReserve w4s reqR1 30 20 1 metaM custC1).2 =
      ScriptOutcome.ok (w4s.balance - w4s.reserved - 30) :=
  (checkAndReserve_spec w4s reqR1 30 20 1 metaM custC1).2.2 rfl (by decide)

/-- Claim C7: a successful deduct of g grains decrements balance by
exactly g, adds g to consumed_grains, sets status to streaming and
last_deduction_at to now, and modifies nothing else: reserved is
untouched and every other request record is untouched. -/
theorem deductGrains_success_effect (s : HotState) (requestId : String)
    (a t : Int) (r : ReqRecord) (h : s.requests requestId = some r)
    (h2 : a ≤ s.balance) :
    deductGrains s requestId a t =
      ({ s with balance := s.balance - a
                requests := s.requests.set requestId
                  { r with consumed_grains := r.consumed_grains + a
                           status := streaming
                           last_deduction_at := some t } },
       ScriptOutcome.ok (s.balance - a)) ∧
    (deductGrains s requestId a t).1.reserved = s.reserved ∧
    (∀ rid2, rid2 ≠ requestId →
        (deductGrains s requestId a t).1.requests rid2 =
          s.requests rid2) := by
  have h3 : ¬ s.balance < a := by omega
  have heq := deductGrains_of_ok s requestId a t r h h3
  refine ⟨heq, ?_, ?_⟩
  · rw [heq]
  · intro rid2 hne
    rw [heq]
    simp [ReqMap.set, hne]

def w7r : ReqRecord :=
  { customer_id := custC1
    reserved_grains := 50
    estimated_grains := 40
    consumed_grains := 0
    status := preflight_approved
    created_at := 1
    metadata := metaM }

def w7s : HotState := ⟨100, 50, fun k => if k = reqR1 then some w7r else none⟩

theorem deductGrains_success_effect_witness :
    deductGrains w7s reqR1 20 2 =
      ({ w7s with balance := w7s.balance - 20
                  requests := w7s.requests.set reqR1
                    { w7r with consumed_grains := w7r.consumed_grains + 20
                               status := streaming
                               last_deduction_at := some 2 } },
       ScriptOutcome.ok (w7s.balance - 20)) ∧
    (deductGrains w7s reqR1 20 2).1.reserved = w7s.reserved ∧
    (∀ rid2, rid2 ≠ reqR1 →
        (deductGrains w7s reqR1 20 2).1.requests rid2 =
          w7s.requests rid2) :=
  deductGrains_success_effect w7s reqR1 20 2 w7r rfl (by decide)

/-- Claim C10: whenever a script execution returns a rejection or failure
result (reserve: REQUEST_EXISTS or INSUFFICIENT_BALANCE; deduct:
REQUEST_NOT_FOUND, INSUFFICIENT_BALANCE or BALANCE_NEGATIVE; finalize:
REQUEST_NOT_FOUND), the hot-store state is completely unchanged, and the
reported balance is the current balance. -/
theorem scripts_failure_atomicity (s : HotState)
    (rid1 : String) (a e t : Int) (m c : String)
    (rid2 : String) (a2 t2 : Int)
    (rid3 : String) (a3 : Int) (st3 : String) (t3 : Int) :
    (∀ b code,
        (checkAndReserve s rid1 a e t m c).2 = ScriptOutcome.err b code →
        (checkAndReserve s rid1 a e t m c).1 = s ∧ b = s.balance ∧
          (code = REQUEST_EXISTS ∨ code = INSUFFICIENT_BALANCE)) ∧
    (∀ b code,
        (deductGrains s rid2 a2 t2).2 = ScriptOutcome.err b code →
        (deductGrains s rid2 a2 t2).1 = s ∧ b = s.balance ∧
          (code = REQUEST_NOT_FOUND ∨ code = INSUFFICIENT_BALANCE ∨
            code = BALANCE_NEGATIVE)) ∧
    ((finalizeRequest s rid3 a3 st3 t3).2 = FinalizeOutcome.notFound →
        (finalizeRequest s rid3 a3 st3 t3).1 = s) := by
  refine ⟨?_, ?_, ?_⟩
  · intro b code hcode
    cases hreq : s.requests rid1 with
    | some r =>
      rw [checkAndReserve_of_some s rid1 a e t m c r hreq] at hcode ⊢
      have h := ScriptOutcome.err.inj hcode
      exact ⟨rfl, h.1.symm, Or.inl h.2.symm⟩
    | none =>
      by_cases h2 : s.balance - s.reserved < a
      · rw [checkAndReserve_of_insufficient s rid1 a e t m c hreq h2]
          at hcode ⊢
        have h := ScriptOutcome.err.inj hcode
        exact ⟨rfl, h.1.symm, Or.inr h.2.symm⟩
      · rw [checkAndReserve_of_approved s rid1 a e t m c hreq h2] at hcode
        exact ScriptOutcome.noConfusion hcode
  · intro b code hcode
    cases hreq : s.requests rid2 with
    | none =>
      rw [deductGrains_of_none s rid2 a2 t2 hreq] at hcode ⊢
      have h := ScriptOutcome.err.inj hcode
      exact ⟨rfl, h.1.symm, Or.inl h.2.symm⟩
    | some r =>
      by_cases h2 : s.balance < a2
      · rw [deductGrains_of_insufficient s rid2 a2 t2 r hreq h2]
          at hcode ⊢
        have h := ScriptOutcome.err.inj hcode
        exact ⟨rfl, h.1.symm, Or.inr (Or.inl h.2.symm)⟩
      · rw [deductGrains_of_ok s rid2 a2 t2 r hreq h2] at hcode
        exact ScriptOutcome.noConfusion hcode
  · intro hcode
    cases hreq : s.requests rid3 with
    | none =>
      rw [finalizeRequest_of_none s rid3 a3 st3 t3 hreq]
    | some r =>
      cases ht : isTerminalChecked r.status with
      | true =>
        rw [finalizeRequest_of_terminal s rid3 a3 st3 t3 r hreq ht] at hcode
        exact FinalizeOutcome.noConfusion hcode
      | false =>
        rw [finalizeRequest_of_active s rid3 a3 st3 t3 r hreq ht] at hcode
        exact FinalizeOutcome.noConfusion hcode

def w10s : HotState := ⟨0, 0, fun _ => none⟩

theorem scripts_failure_atomicity_witness :
    (checkAndReserve w10s reqR1 5 5 1 metaM custC1).1 = w10s ∧
    (deductGrains w10s reqR1 1 1).1 = w10s ∧
    (finalizeRequest w10s reqR1 1 completed 1).1 = w10s :=
  ⟨((scripts_failure_atomicity w10s reqR1 5 5 1 metaM custC1 reqR1 1 1
      reqR1 1 completed 1).1 0 INSUFFICIENT_BALANCE rfl).1,
   ((scripts_failure_atomicity w10s reqR1 5 5 1 metaM custC1 reqR1 1 1
      reqR1 1 completed 1).2.1 0 REQUEST_NOT_FOUND rfl).1,
   (scripts_failure_atomicity w10s reqR1 5 5 1 metaM custC1 reqR1 1 1
      reqR1 1 completed 1).2.2 rfl⟩

/-- Claim C5 (amended): first finalize of an existing non-terminal
request with reserved res, consumed cons and balance b. Over-estimate:
balance becomes b + (cons − actual), refund cons − actual. Affordable
undercharge: balance becomes b − (actual − cons), refund −(actual − cons).
Shortfall: balance clamps to 0, refund −b, and the integrity flag reads
undercharge_shortfall provided the reservation release does not
underflow. Release: reserved decreases by exactly res when ≥ res,
otherwise it is clamped to 0 and the flag reads reservation_underflow
(overwriting an undercharge_shortfall flag written in the same call). -/
theorem finalizeRequest_first_finalize_spec (s : HotState)
    (requestId : String) (a : Int) (stat : String) (t : Int)
    (r : ReqRecord) (h : s.requests requestId = some r)
    (ht : isTerminalChecked r.status = false) :
    (r.consumed_grains > a →
        (finalizeRequest s requestId a stat t).1.balance =
          s.balance + (r.consumed_grains - a) ∧
        (finalizeRequest s requestId a stat t).2 =
          FinalizeOutcome.success (r.consumed_grains - a)
            (s.balance + (r.consumed_grains - a))) ∧
    (a > r.consumed_grains → s.balance ≥ a - r.consumed_grains →
        (finalizeRequest s requestId a stat t).1.balance =
          s.balance - (a - r.consumed_grains) ∧
        (finalizeRequest s requestId a stat t).2 =
          FinalizeOutcome.success (-(a - r.consumed_grains))
            (s.balance - (a - r.consumed_grains))) ∧
    (a > r.consumed_grains → s.balance < a - r.consumed_grains →
        (finalizeRequest s requestId a stat t).1.balance = 0 ∧
        (finalizeRequest s requestId a stat t).2 =
          FinalizeOutcome.success (-s.balance) 0 ∧
        (s.reserved ≥ r.reserved_grains →
          ((finalizeRequest s requestId a stat t).1.requests
              requestId).bind ReqRecord.integrity_issue =
            some undercharge_shortfall)) ∧
    (s.reserved ≥ r.reserved_grains →
        (finalizeRequest s requestId a stat t).1.reserved =
          s.reserved - r.reserved_grains) ∧
    (s.reserved < r.reserved_grains →
        (finalizeRequest s requestId a stat t).1.reserved = 0 ∧
        ((finalizeRequest s requestId a stat t).1.requests
            requestId).bind ReqRecord.integrity_issue =
          some reservation_underflow) := by
  have heq := finalizeRequest_of_active s requestId a stat t r h ht
  refine ⟨?_, ?_, ?_, ?_, ?_⟩
  · intro h1
    have hb : finalizeNewBalance s.balance r.consumed_grains a =
        s.balance + (r.consumed_grains - a) := by
      unfold finalizeNewBalance
      rw [if_pos h1]
    have hrf : finalizeRefund s.balance r.consumed_grains a =
        r.consumed_grains - a := by
      unfold finalizeRefund
      rw [if_pos h1]
    rw [heq]
    exact ⟨by simp [hb], by simp [hb, hrf]⟩
  · intro h1 h2
    have hb : finalizeNewBalance s.balance r.consumed_grains a =
        s.balance - (a - r.consumed_grains) := by
      unfold finalizeNewBalance
      rw [if_neg (by omega), if_pos h1, if_pos h2]
    have hrf : finalizeRefund s.balance r.consumed_grains a =
        -(a - r.consumed_grains) := by
      unfold finalizeRefund
      rw [if_neg (by omega), if_pos h1, if_pos h2]
    rw [heq]
    exact ⟨by simp [hb], by simp [hb, hrf]⟩
  · intro h1 h2
    have hb : finalizeNewBalance s.balance r.consumed_grains a = 0 := by
      unfold finalizeNewBalance
      rw [if_neg (by omega), if_pos h1, if_neg (by omega)]
    have hrf : finalizeRefund s.balance r.consumed_grains a =
        -s.balance := by
      unfold finalizeRefund
      rw [if_neg (by omega), if_pos h1, if_neg (by omega)]
    refine ⟨by rw [heq]; simp [hb], by rw [heq]; simp [hb, hrf], ?_⟩
    intro h3
    have hflag : finalizeIssueFinal s.reserved r.reserved_grains
        (finalizeIssue1 s.balance r.consumed_grains a
          r.integrity_issue) = some undercharge_shortfall := by
      unfold finalizeIssueFinal finalizeIssue1
      rw [if_pos h3, if_neg (by omega), if_pos h1, if_neg (by omega)]
    rw [heq]
    simp [ReqMap.set, hflag]
  · intro h3
    have hres : finalizeNewReserved s.reserved r.reserved_grains =
        s.reserved - r.reserved_grains := by
      unfold finalizeNewReserved
      rw [if_pos h3]
    rw [heq]
    simp [hres]
  · intro h3
    have hres : finalizeNewReserved s.reserved r.reserved_grains = 0 := by
      unfold finalizeNewReserved
      rw [if_neg (by omega)]
    have hflag : finalizeIssueFinal s.reserved r.reserved_grains
        (finalizeIssue1 s.balance r.consumed_grains a
          r.integrity_issue) = some reservation_underflow := by
      unfold finalizeIssueFinal
      rw [if_neg (by omega)]
    rw [heq]
    exact ⟨by simp [hres], by simp [ReqMap.set, hflag]⟩

def w5r : ReqRecord :=
  { customer_id := custC1
    reserved_grains := 50
    estimated_grains := 40
    consumed_grains := 30
    status := streaming
    created_at := 1
    metadata := metaM }

def w5s : HotState := ⟨100, 50, fun k => if k = reqR1 then some w5r else none⟩

theorem finalizeRequest_first_finalize_spec_witness :
    ((finalizeRequest w5s reqR1 20 completed 3).1.balance =
        w5s.balance + (w5r.consumed_grains - 20) ∧
      (finalizeRequest w5s reqR1 20 completed 3).2 =
        FinalizeOutcome.success (w5r.consumed_grains - 20)
          (w5s.balance + (w5r.consumed_grains - 20))) ∧
    (finalizeRequest w5s reqR1 20 completed 3).1.reserved =
      w5s.reserved - w5r.reserved_grains :=
  ⟨(finalizeRequest_first_finalize_spec w5s reqR1 20 completed 3 w5r
      rfl (by decide)).1 (by decide),
   (finalizeRequest_first_finalize_spec w5s reqR1 20 completed 3 w5r
      rfl (by decide)).2.2.2.1 (by decide)⟩

def c5r : ReqRecord :=
  { customer_id := custC1
    reserved_grains := 10
    estimated_grains := 10
    consumed_grains := 0
    status := preflight_approved
    created_at := 1
    metadata := metaM }

def c5s : HotState := ⟨0, 0, fun k => if k = reqR1 then some c5r else none⟩

/-- Claim C5 counterexample: in the shortfall case (actual 5 > consumed 0
and balance 0 < 5) the claim requires the integrity flag to read
undercharge_shortfall, but when the reservation release underflows in the
same call (reserved 0 < reserved_grains 10) the script overwrites the
flag with reservation_underflow. -/
theorem finalize_shortfall_flag_overwritten :
    c5r.consumed_grains < 5 ∧
    c5s.balance < 5 - c5r.consumed_grains ∧
    ((finalizeRequest c5s reqR1 5 completed 3).1.requests reqR1).bind
        ReqRecord.integrity_issue = some reservation_underflow ∧
    ((finalizeRequest c5s reqR1 5 completed 3).1.requests reqR1).bind
        ReqRecord.integrity_issue ≠ some undercharge_shortfall := by
  refine ⟨by decide, by decide, by decide, by decide⟩

/-- Whether an execution is a deduct-script execution. -/
def GOp.isDeduct : GOp → Bool
  | GOp.deduct _ _ _ _ => true
  | _ => false

lemma gop_apply_keeps_terminal3 (st : Store) (op : GOp) (rid : String)
    (r : ReqRecord) (ht : isTerminalChecked r.status = true)
    (hr : st.requests rid = some r) (hnd : op.isDeduct = false) :
    (op.apply st).requests rid = some r := by
  cases op with
  | reserve c rid2 a e t m =>
    show (checkAndReserve (st.view c) rid2 a e t m c).1.requests rid =
      some r
    by_cases hid : rid2 = rid
    · subst hid
      rw [checkAndReserve_of_some (st.view c) rid2 a e t m c r hr]
      exact hr
    · cases hsome : (st.view c).requests rid2 with
      | some r2 =>
        rw [checkAndReserve_of_some (st.view c) rid2 a e t m c r2 hsome]
        exact hr
      | none =>
        by_cases h2 : (st.view c).balance - (st.view c).reserved < a
        · rw [checkAndReserve_of_insufficient (st.view c) rid2 a e t m c
            hsome h2]
          exact hr
        · rw [checkAndReserve_of_approved (st.view c) rid2 a e t m c
            hsome h2]
          have hne : ¬ rid = rid2 := fun hh => hid hh.symm
          show ((st.view c).requests.set rid2 _) rid = some r
          simp only [ReqMap.set, if_neg hne]
          exact hr
  | deduct c rid2 a t =>
    exact absurd hnd (by simp [GOp.isDeduct])
  | finalize c rid2 a stat t =>
    show (finalizeRequest (st.view c) rid2 a stat t).1.requests rid =
      some r
    by_cases hid : rid2 = rid
    · subst hid
      rw [finalizeRequest_of_terminal (st.view c) rid2 a stat t r hr ht]
      exact hr
    · cases hsome : (st.view c).requests rid2 with
      | none =>
        rw [finalizeRequest_of_none (st.view c) rid2 a stat t hsome]
        exact hr
      | some r2 =>
        cases htr : isTerminalChecked r2.status with
        | true =>
          rw [finalizeRequest_of_terminal (st.view c) rid2 a stat t r2
            hsome htr]
          exact hr
        | false =>
          rw [finalizeRequest_of_active (st.view c) rid2 a stat t r2
            hsome htr]
          have hne : ¬ rid = rid2 := fun hh => hid hh.symm
          show ((st.view c).requests.set rid2 _) rid = some r
          simp only [ReqMap.set, if_neg hne]
          exact hr

/-- Claim C6 (amended): requests whose status is completed, killed or
failed keep their record (and in particular their status) across every
sequence of reserve and finalize executions; the deduct script is
excluded because it sets the status of any existing request to streaming,
and the finalize script does not protect the timeout status (see the
counterexample). -/
theorem terminal3_status_immutable (st : Store) (rid : String)
    (r : ReqRecord) (ops : List GOp)
    (hterm : r.status = completed ∨ r.status = killed ∨
      r.status = failed)
    (hr : st.requests rid = some r)
    (hops : ∀ op ∈ ops, op.isDeduct = false) :
    (runOps st ops).requests rid = some r ∧
    ((runOps st ops).requests rid).map ReqRecord.status =
      some r.status := by
  have ht : isTerminalChecked r.status = true := by
    rcases hterm with h | h | h <;> rw [isTerminalChecked, h] <;> simp
  have main : (runOps st ops).requests rid = some r := by
    induction ops generalizing st with
    | nil => exact hr
    | cons op rest ih =>
      exact ih (op.apply st)
        (gop_apply_keeps_terminal3 st op rid r ht hr
          (hops op (List.mem_cons_self op rest)))
        (fun o ho => hops o (List.mem_cons_of_mem op ho))
  exact ⟨main, by rw [main]; rfl⟩

def w6r : ReqRecord :=
  { customer_id := custC1
    reserved_grains := 50
    estimated_grains := 40
    consumed_grains := 40
    status := completed
    created_at := 1
    metadata := metaM }

def w6store : Store :=
  ⟨fun _ => 100, fun _ => 0, fun k => if k = reqR1 then some w6r else none⟩

def w6ops : List GOp :=
  [GOp.reserve custC1 reqR2 10 10 4 metaM,
   GOp.finalize custC1 reqR1 40 killed 5]

theorem terminal3_status_immutable_witness :
    (runOps w6store w6ops).requests reqR1 = some w6r ∧
    ((runOps w6store w6ops).requests reqR1).map ReqRecord.status =
      some w6r.status :=
  terminal3_status_immutable w6store reqR1 w6r w6ops
    (Or.inl rfl) rfl
    (by
      intro o ho
      simp only [w6ops, List.mem_cons, List.mem_singleton,
        List.not_mem_nil, or_false] at ho
      rcases ho with h | h <;> subst h <;> rfl)

def c6rt : ReqRecord :=
  { customer_id := custC1
    reserved_grains := 5
    estimated_grains := 5
    consumed_grains := 5
    status := timeout_status
    created_at := 1
    metadata := metaM }

def c6s : HotState :=
  ⟨50, 0, fun k =>
    if k = reqR1 then some w6r
    else if k = reqR2 then some c6rt
    else none⟩

/-- Claim C6 counterexample: a deduct execution on a request whose status
is completed changes its status to streaming, and a finalize execution on
a request whose status is timeout overwrites that status, so terminal
states are not final as claimed. -/
theorem terminal_status_mutated_cex :
    (c6s.requests reqR1).map ReqRecord.status = some completed ∧
    ((deductGrains c6s reqR1 1 9).1.requests reqR1).map
      ReqRecord.status = some streaming ∧
    (c6s.requests reqR2).map ReqRecord.status = some timeout_status ∧
    ((finalizeRequest c6s reqR2 0 completed 9).1.requests reqR2).map
      ReqRecord.status = some completed := by
  refine ⟨by decide, by decide, by decide, by decide⟩

def c2r : ReqRecord :=
  { customer_id := custC1
    reserved_grains := 5
    estimated_grains := 5
    consumed_grains := 7
    status := timeout_status
    created_at := 1
    metadata := metaM }

def c2s : HotState := ⟨10, 0, fun k => if k = reqR1 then some c2r else none⟩

/-- Claim C2 (code-bug evaluation): the script's terminal-status guard
omits timeout, so a finalize of a request whose status is timeout is not
a no-op: here it changes the balance from 10 to 17, returns refund 7
instead of zero, and rewrites the request's status. -/
theorem finalize_timeout_not_idempotent :
    c2r.status = timeout_status ∧
    (finalizeRequest c2s reqR1 0 completed 9).2 =
      FinalizeOutcome.success 7 17 ∧
    (finalizeRequest c2s reqR1 0 completed 9).1.balance = 17 ∧
    c2s.balance = 10 ∧
    ((finalizeRequest c2s reqR1 0 completed 9).1.requests reqR1).map
      ReqRecord.status = some completed := by
  refine ⟨by decide, by decide, by decide, by decide, by decide⟩

def c8s0 : HotState := ⟨5000, 0, fun _ => none⟩

def c8s1 : HotState := (checkAndReserve c8s0 reqR1 5000 5000 1 metaM custC1).1

def c8s2 : HotState := (deductGrains c8s1 reqR1 5000 2).1

/-- Claim C8 (amended): from balance 5000 and reserved 0, reserve 5000 is
approved, deduct 5000 succeeds, and finalize with actual cost 6000 clamps
the balance to 0, sets the undercharge_shortfall flag and releases the
reservation to 0; the refunded grains are 0 (the negated pre-finalize
balance), not −5000. -/
theorem undercharge_shortfall_scenario :
    (checkAndReserve c8s0 reqR1 5000 5000 1 metaM custC1).2 =
      ScriptOutcome.ok 0 ∧
    (deductGrains c8s1 reqR1 5000 2).2 = ScriptOutcome.ok 0 ∧
    (finalizeRequest c8s2 reqR1 6000 completed 3).2 =
      FinalizeOutcome.success 0 0 ∧
    (finalizeRequest c8s2 reqR1 6000 completed 3).1.balance = 0 ∧
    (finalizeRequest c8s2 reqR1 6000 completed 3).1.reserved = 0 ∧
    ((finalizeRequest c8s2 reqR1 6000 completed 3).1.requests
        reqR1).bind ReqRecord.integrity_issue =
      some undercharge_shortfall := by
  refine ⟨by decide, by decide, by decide, by decide, by decide, by decide⟩

/-- Claim C8 counterexample: the finalize of the scenario returns
refunded grains 0, not −5000 as claimed. -/
theorem undercharge_shortfall_refund_cex :
    (finalizeRequest c8s2 reqR1 6000 completed 3).2 =
      FinalizeOutcome.success 0 0 ∧
    (finalizeRequest c8s2 reqR1 6000 completed 3).2 ≠
      FinalizeOutcome.success (-5000) 0 := by
  refine ⟨by decide, by decide⟩

/-! ## Bootstrap routine of the reconciliation syncer -/

/-- Plain integer-valued keys of the hot store as the syncer sees them. -/
abbrev KV := String → Option Int

/-- SET of one integer key. -/
def KV.set (m : KV) (k : String) (v : Int) : KV :=
  fun k2 => if k2 = k then some v else m k2

/-- The balance key Syncer.InitializeRedis actually writes: the source
formats ":balance:%s". -/
def mangledBalanceKey (cid : String) : String := ":balance:" ++ cid

/-- The canonical balance key read by every ledger operation
("customer:balance:%s" in ledger.go and check_and_reserve.lua). -/
def canonicalBalanceKey (cid : String) : String :=
  "customer:balance:" ++ cid

/-- The reserved key ("customer:reserved:%s", written correctly). -/
def reservedKey (cid : String) : String := "customer:reserved:" ++ cid

/-- Embedding of Syncer.InitializeRedis: for every streamed
(customer_id, balance) row it SETs the balance under the mangled key and
the reserved counter to 0; pipeline batching does not change the final
store contents. -/
def initializeRedis (kv : KV) (rows : List (String × Int)) : KV :=
  rows.foldl
    (fun m row =>
      (m.set (mangledBalanceKey row.1) row.2).set (reservedKey row.1) 0)
    kv

/-- Claim C3 (code-bug evaluation): after the bootstrap for one customer
row (c1, 100), the canonical balance key is still unset (so the ledger
reads balance 0), the durable balance sits under the mangled key
":balance:c1", and only the reserved counter is correctly initialised. -/
theorem initializeRedis_wrong_key :
    initializeRedis (fun _ => none) [(custC1, 100)]
      (canonicalBalanceKey custC1) = none ∧
    initializeRedis (fun _ => none) [(custC1, 100)]
      (mangledBalanceKey custC1) = some 100 ∧
    initializeRedis (fun _ => none) [(custC1, 100)]
      (reservedKey custC1) = some 0 := by
  refine ⟨by decide, by decide, by decide⟩
